import Mathlib

/-!
Verification of the credential-gated encrypted wallet vault of the
skypier-wallet repository.

The embedding covers:
* the encrypted storage service of `src/lib/storage/encrypted`
  (`deriveKey`, `encrypt`, `decrypt`, `storeWallets`, `retrieveWallets`,
  `storeCredential`, `hasStoredWallets`, `clearAllData`,
  `derivePasswordFromCredential`);
* the session helpers and the Zustand wallet store of `wallet.store.ts`
  (`getValidSession`, `createSession`, `clearSession`, `addWallet`,
  `removeWallet`, `setActiveWallet`, `lock`, `unlock`, `reset`,
  `clearError` and the `initialize` action, embedded here under the name
  `initializeStore`);
* the key utilities of `src/lib/crypto/keys.ts`
  (`deriveAddressFromPublicKey`, `isValidAddress`, `toChecksumAddress`).

Modelling conventions:
* `localStorage` becomes an explicit record `LocalStorage` with one field
  per persisted key; every store action is a pure function from the old
  `(state, storage)` pair to a `StepResult` carrying the new pair plus the
  message of the rethrown error, if any.
* The Web Crypto primitives (PBKDF2, AES-GCM, SHA-256) are external
  platform code, not repository code; they are modelled as ideal symbolic
  cryptography: `deriveKey` pairs password and salt, `encrypt` packages
  the payload with the key and the fresh IV, and `decrypt` succeeds
  exactly when the key matches, returning the original payload (the
  AES-GCM authentication-tag check of the source).  JSON
  stringify/parse round-tripping of serialisable values is the identity
  at this level.
* Entropy (`crypto.getRandomValues`) and the clock (`Date.now()`) are
  passed to each operation as explicit arguments (`fresh`, `iv`, `now`).
* The two authenticated-encryption store operations (`storeWallets`,
  `storeCredential`) are fallible external I/O: the AES-GCM promise may
  reject and the subsequent `setItem` may throw, and in either case the
  target key is not updated while earlier writes (such as a salt
  persisted by `getSalt`) remain.  An explicit Boolean argument per call
  (`encOk`, `encCredOk`, `encWalletsOk`) injects that failure; the
  platform-defined rejection reason is abstracted as the token
  `ENCRYPTION_FAILED`.  The remaining plain pointer writes (salt,
  session ticket, active-wallet and last-credential-id pointers) are
  kept infallible in the model.
* The platform authenticator call `webAuthnService.authenticate` is
  external user-paced code; its outcome is an explicit Boolean argument
  `authOk` (`false` models the call throwing, as on assertion failure).
* Byte strings and character strings of the key utilities are lists of
  natural numbers (byte values / UTF-16 code units).
-/

namespace Skypier

/-! ### Wallet data model (`src/types`) -/

inductive WalletType
  | biometric
  | imported
deriving DecidableEq, Repr

structure Wallet where
  address : String
  type : WalletType
  name : Option String := none
  createdAt : Nat := 0
  publicKey : Option String := none
  credentialId : String := ""
  encryptedPrivateKey : Option String := none
deriving DecidableEq, Repr

inductive WalletErrorCode
  | WEBAUTHN_NOT_SUPPORTED
  | WEBAUTHN_CREATION_FAILED
  | WEBAUTHN_AUTH_FAILED
  | WEBAUTHN_CANCELLED
  | KEY_GENERATION_FAILED
  | SIGNING_FAILED
  | INVALID_SIGNATURE
  | STORAGE_ERROR
  | ENCRYPTION_FAILED
  | DECRYPTION_FAILED
  | INSUFFICIENT_FUNDS
  | TRANSACTION_FAILED
  | GAS_ESTIMATION_FAILED
  | UNKNOWN_ERROR
  | NETWORK_ERROR
  | INVALID_ADDRESS
deriving DecidableEq, Repr

structure WalletError where
  message : String
  code : WalletErrorCode
  details : String := ""
deriving DecidableEq, Repr

/-! ### Symbolic cryptography (models the Web Crypto API calls of
`src/lib/storage/encrypted`) -/

/-- Result of `deriveKey(password, salt)`: PBKDF2-HMAC-SHA256 with 100,000
iterations is modelled as an ideal key-derivation function, so a derived
key is determined by, and determines, the `(password, salt)` pair. -/
structure DerivedKey where
  password : String
  salt : Nat
deriving DecidableEq, Repr

/-- `deriveKey(password, salt)` of the encrypted storage service. -/
def deriveKey (password : String) (salt : Nat) : DerivedKey :=
  { password := password, salt := salt }

/-- An `EncryptedBlob` models the base64(IV‖ciphertext) string produced by
`encrypt`: AES-GCM is ideal authenticated encryption, so the blob is an
opaque package of the IV, the encrypting key and the JSON payload. -/
structure EncryptedBlob (α : Type) where
  iv : Nat
  key : DerivedKey
  payload : α
deriving DecidableEq, Repr

/-- `encrypt(data, key)` with the fresh random 12-byte IV passed
explicitly: JSON-stringifies the payload, AES-GCM encrypts it and prepends
the IV. -/
def encrypt {α : Type} (data : α) (key : DerivedKey) (iv : Nat) :
    EncryptedBlob α :=
  { iv := iv, key := key, payload := data }

/-- `decrypt(encryptedData, key)`: splits IV and ciphertext, AES-GCM
decrypts and JSON-parses.  The AEAD tag check makes decryption succeed
exactly for the key that produced the blob; any other key fails. -/
def decrypt {α : Type} (blob : EncryptedBlob α) (key : DerivedKey) :
    Option α :=
  if blob.key = key then some blob.payload else none

/-- `derivePasswordFromCredential(credentialId)`: SHA-256 digest of the
credential id, base64-encoded.  Modelled as an ideal (injective) one-way
function from credential ids to password strings. -/
def derivePasswordFromCredential (credentialId : String) : String :=
  "sha256-b64:" ++ credentialId

/-! ### Persisted store (`localStorage`), one field per persisted key -/

structure SessionData where
  expiresAt : Nat
  credentialId : String
deriving DecidableEq, Repr

/-- The browser key-value store, restricted to the six persisted vault
keys.  `none` models an absent key. -/
structure LocalStorage where
  skypier_wallets : Option (EncryptedBlob (List Wallet)) := none
  skypier_active_wallet : Option String := none
  skypier_credentials : Option (EncryptedBlob (List (String × String))) := none
  skypier_salt : Option Nat := none
  skypier_session : Option SessionData := none
  skypier_last_credential_id : Option String := none
deriving DecidableEq, Repr

def emptyStorage : LocalStorage := {}

/-! ### Encrypted storage service (`src/lib/storage/encrypted`) -/

/-- `getSalt()`: read the stored salt, or generate (entropy `fresh`) and
persist a new one. -/
def getSalt (fresh : Nat) (st : LocalStorage) : Nat × LocalStorage :=
  match st.skypier_salt with
  | some s => (s, st)
  | none => (fresh, { st with skypier_salt := some fresh })

/-- `storeWallets(wallets, password)`.  `getSalt` runs (and may persist
a new salt) first; the encryption/write of the wallet key is fallible
external I/O, injected by `encOk`: on failure the wallet key is not
updated and the error is rethrown to the caller. -/
def storeWallets (wallets : List Wallet) (password : String)
    (fresh iv : Nat) (encOk : Bool) (st : LocalStorage) :
    Option String × LocalStorage :=
  let p := getSalt fresh st
  let key := deriveKey password p.1
  if encOk then
    (none, { p.2 with skypier_wallets := some (encrypt wallets key iv) })
  else (some "ENCRYPTION_FAILED", p.2)

/-- `retrieveWallets(password)`: empty list when the key is absent;
otherwise decrypt, rethrowing any failure as `DECRYPTION_FAILED`. -/
def retrieveWallets (password : String) (fresh : Nat) (st : LocalStorage) :
    Except String (List Wallet) × LocalStorage :=
  match st.skypier_wallets with
  | none => (Except.ok [], st)
  | some blob =>
    let p := getSalt fresh st
    let key := deriveKey password p.1
    match decrypt blob key with
    | some ws => (Except.ok ws, p.2)
    | none => (Except.error "DECRYPTION_FAILED", p.2)

/-- `storeActiveWallet(address)`. -/
def storeActiveWallet (address : String) (st : LocalStorage) : LocalStorage :=
  { st with skypier_active_wallet := some address }

/-- `retrieveActiveWallet()`. -/
def retrieveActiveWallet (st : LocalStorage) : Option String :=
  st.skypier_active_wallet

/-- JavaScript object-key assignment `credentials[walletAddress] = id`:
overwrite in place when the key exists, append otherwise. -/
def setMapKey (m : List (String × String)) (k v : String) :
    List (String × String) :=
  if m.any (fun p => p.1 == k) then
    m.map (fun p => if p.1 == k then (k, v) else p)
  else m ++ [(k, v)]

/-- `storeCredential(walletAddress, credentialId, password)`:
read-decrypt-merge-encrypt-write on the address→credential map, starting
from the empty map when the existing blob is absent or fails to decrypt
(that decryption failure is caught internally).  The final
encryption/write is fallible external I/O, injected by `encOk`: on
failure the credential key is not updated and the error is rethrown. -/
def storeCredential (walletAddress credentialId password : String)
    (fresh iv : Nat) (encOk : Bool) (st : LocalStorage) :
    Option String × LocalStorage :=
  let p := getSalt fresh st
  let key := deriveKey password p.1
  let credentials : List (String × String) :=
    match p.2.skypier_credentials with
    | none => []
    | some blob => (decrypt blob key).getD []
  let credentials := setMapKey credentials walletAddress credentialId
  if encOk then
    (none, { p.2 with skypier_credentials := some (encrypt credentials key iv) })
  else (some "ENCRYPTION_FAILED", p.2)

/-- `hasStoredWallets()`. -/
def hasStoredWallets (st : LocalStorage) : Bool :=
  st.skypier_wallets.isSome

/-- `clearAllData()`: removes each key of the service's `STORAGE_KEYS`
object — wallets, active wallet, credentials and salt.  (The session and
last-credential-id keys live in the wallet store module and are not in
that object.) -/
def clearAllData (st : LocalStorage) : LocalStorage :=
  { st with skypier_wallets := none, skypier_active_wallet := none,
            skypier_credentials := none, skypier_salt := none }

/-! ### Session helpers (`wallet.store.ts`) -/

def SESSION_TIMEOUT_MS : Nat := 5 * 60 * 1000

/-- `getValidSession()`: absent key → `none`; expired ticket → remove the
key and return `none`; otherwise the parsed ticket. -/
def getValidSession (now : Nat) (st : LocalStorage) :
    Option SessionData × LocalStorage :=
  match st.skypier_session with
  | none => (none, st)
  | some session =>
    if now > session.expiresAt then
      (none, { st with skypier_session := none })
    else (some session, st)

/-- `createSession(credentialId)`: write a fresh five-minute ticket. -/
def createSession (credentialId : String) (now : Nat) (st : LocalStorage) :
    LocalStorage :=
  { st with skypier_session := some ({ expiresAt := now + SESSION_TIMEOUT_MS,
                                       credentialId := credentialId }) }

/-- `clearSession()`. -/
def clearSession (st : LocalStorage) : LocalStorage :=
  { st with skypier_session := none }

/-! ### Wallet store state and actions (`wallet.store.ts`) -/

structure WalletState where
  wallets : List Wallet := []
  activeWallet : Option Wallet := none
  isLocked : Bool := true
  isLoading : Bool := false
  error : Option WalletError := none
deriving DecidableEq, Repr

def initialState : WalletState := {}

/-- Result of one store action: `thrown` is the message of the rethrown
error (`none` when the action resolves), `decryptAttempted` is a ghost
flag recording whether `retrieveWallets` was invoked. -/
structure StepResult where
  thrown : Option String
  state : WalletState
  store : LocalStorage
  decryptAttempted : Bool := false
deriving DecidableEq, Repr

/-- Active-wallet selection used verbatim by both `initialize` and
`unlock`: `find(w => w.address === activeAddress) || decryptedWallets[0]`. -/
def pickActiveWallet (activeAddress : Option String) (ws : List Wallet) :
    Option Wallet :=
  match activeAddress with
  | some a =>
    match ws.find? (fun w => w.address == a) with
    | some w => some w
    | none => ws.head?
  | none => ws.head?

/-- The `catch` block of `unlock`: loading off, lock forced, the error
wrapped as `WEBAUTHN_AUTH_FAILED` in `error`, and the error rethrown. -/
def unlockFailure (s : WalletState) (st : LocalStorage) (msg : String)
    (att : Bool) : StepResult :=
  let err : WalletError :=
    { message := "Failed to unlock wallet",
      code := WalletErrorCode.WEBAUTHN_AUTH_FAILED,
      details := msg }
  let s2 : WalletState :=
    { s with isLoading := false, isLocked := true, error := some err }
  { thrown := some msg, state := s2, store := st, decryptAttempted := att }

/-- `unlock(credentialId)`.  `authOk = false` models
`webAuthnService.authenticate` throwing (assertion failure); its thrown
message is `Authentication failed`. -/
def unlock (credentialId : String) (authOk : Bool) (now fresh : Nat)
    (s : WalletState) (st : LocalStorage) : StepResult :=
  let s1 := { s with isLoading := true, error := none }
  if credentialId = "" then
    unlockFailure s1 st "CREDENTIAL_ID_REQUIRED" false
  else if authOk = false then
    unlockFailure s1 st "Authentication failed" false
  else
    let password := derivePasswordFromCredential credentialId
    let r := retrieveWallets password fresh st
    match r.1 with
    | Except.error msg => unlockFailure s1 r.2 msg true
    | Except.ok decryptedWallets =>
      if decryptedWallets.length = 0 then
        unlockFailure s1 r.2 "NO_WALLETS_FOUND" true
      else
        let activeAddress := retrieveActiveWallet r.2
        let activeWallet := pickActiveWallet activeAddress decryptedWallets
        let st2 := createSession credentialId now r.2
        let s2 : WalletState :=
          { s1 with wallets := decryptedWallets,
                    activeWallet := activeWallet,
                    isLocked := false, isLoading := false }
        { thrown := none, state := s2, store := st2, decryptAttempted := true }

/-- The `catch` block of `addWallet`. -/
def addWalletFailure (s : WalletState) (st : LocalStorage) (msg : String) :
    StepResult :=
  let err : WalletError :=
    { message := "Failed to add wallet",
      code := WalletErrorCode.UNKNOWN_ERROR,
      details := msg }
  let s2 : WalletState := { s with isLoading := false, error := some err }
  { thrown := some msg, state := s2, store := st }

/-- `addWallet(wallet)`.  The two awaited encrypted writes —
`storeCredential` first, `storeWallets` second — are fallible; a throw
from either lands in the `catch` block with whatever writes already
happened left in place (the source performs no rollback). -/
def addWallet (wallet : Wallet) (now fresh iv1 iv2 : Nat)
    (encCredOk encWalletsOk : Bool) (s : WalletState) (st : LocalStorage) :
    StepResult :=
  let s1 := { s with isLoading := true, error := none }
  if s1.wallets.any (fun w => w.address == wallet.address) then
    addWalletFailure s1 st "WALLET_ALREADY_EXISTS"
  else
    let updatedWallets := s1.wallets ++ [wallet]
    match wallet.type with
    | WalletType.imported =>
      addWalletFailure s1 st "IMPORTED_WALLET_NOT_SUPPORTED_YET"
    | WalletType.biometric =>
      let password := derivePasswordFromCredential wallet.credentialId
      let r1 := storeCredential wallet.address wallet.credentialId password
          fresh iv1 encCredOk st
      match r1.1 with
      | some msg => addWalletFailure s1 r1.2 msg
      | none =>
        let r2 := storeWallets updatedWallets password fresh iv2
            encWalletsOk r1.2
        match r2.1 with
        | some msg => addWalletFailure s1 r2.2 msg
        | none =>
          let st3 :=
            { r2.2 with
              skypier_last_credential_id := some wallet.credentialId }
          let st4 := createSession wallet.credentialId now st3
          let st5 := storeActiveWallet wallet.address st4
          let s2 : WalletState :=
            { s1 with wallets := updatedWallets,
                      activeWallet := some wallet,
                      isLocked := false, isLoading := false }
          { thrown := none, state := s2, store := st5 }

/-- The `catch` block of `removeWallet`. -/
def removeWalletFailure (s : WalletState) (st : LocalStorage)
    (msg : String) : StepResult :=
  let err : WalletError :=
    { message := "Failed to remove wallet",
      code := WalletErrorCode.UNKNOWN_ERROR,
      details := msg }
  let s2 : WalletState := { s with isLoading := false, error := some err }
  { thrown := some msg, state := s2, store := st }

/-- `removeWallet(address)`.  The single awaited encrypted write
(`storeWallets` on the shrunk list) is fallible; a throw lands in the
`catch` block. -/
def removeWallet (address : String) (fresh iv : Nat) (encOk : Bool)
    (s : WalletState) (st : LocalStorage) : StepResult :=
  let s1 := { s with isLoading := true, error := none }
  match s1.wallets.find? (fun w => w.address == address) with
  | none => removeWalletFailure s1 st "WALLET_NOT_FOUND"
  | some walletToRemove =>
    let updatedWallets := s1.wallets.filter (fun w => !(w.address == address))
    match walletToRemove.type with
    | WalletType.imported =>
      removeWalletFailure s1 st "IMPORTED_WALLET_NOT_SUPPORTED_YET"
    | WalletType.biometric =>
      let password := derivePasswordFromCredential walletToRemove.credentialId
      let r := storeWallets updatedWallets password fresh iv encOk st
      match r.1 with
      | some msg => removeWalletFailure s1 r.2 msg
      | none =>
        let st1 := r.2
        let finish : Option Wallet → LocalStorage → StepResult :=
          fun newActive st2 =>
            let s2 : WalletState :=
              { s1 with wallets := updatedWallets,
                        activeWallet := newActive, isLoading := false }
            { thrown := none, state := s2, store := st2 }
        match s1.activeWallet with
        | some aw =>
          if aw.address = address then
            match updatedWallets.head? with
            | some w => finish (some w) (storeActiveWallet w.address st1)
            | none => finish none st1
          else finish (some aw) st1
        | none => finish none st1

/-- `setActiveWallet(address)`: in-memory reselection plus the
active-address pointer write; records an error (without throwing) when
the address is not present. -/
def setActiveWallet (address : String) (s : WalletState)
    (st : LocalStorage) : StepResult :=
  match s.wallets.find? (fun w => w.address == address) with
  | none =>
    let err : WalletError :=
      { message := "Wallet not found", code := WalletErrorCode.UNKNOWN_ERROR }
    { thrown := none, state := { s with error := some err }, store := st }
  | some wallet =>
    let s2 : WalletState :=
      { s with activeWallet := some wallet, error := none }
    { thrown := none, state := s2, store := storeActiveWallet address st }

/-- `lock()`. -/
def lock (s : WalletState) (st : LocalStorage) : StepResult :=
  { thrown := none,
    state := { s with isLocked := true, wallets := [], activeWallet := none },
    store := clearSession st }

/-- `clearError()`. -/
def clearError (s : WalletState) : WalletState :=
  { s with error := none }

/-- `reset()`. -/
def reset (_s : WalletState) (st : LocalStorage) : StepResult :=
  { thrown := none, state := initialState, store := clearAllData st }

/-- Shared tail of `initialize`: the code after the auto-unlock attempt,
branching on the in-memory wallet list captured at entry. -/
def initFinishLocked (s : WalletState) (st : LocalStorage) (att : Bool) :
    StepResult :=
  if s.wallets.length = 0 then
    { thrown := none,
      state := { s with isLoading := false, isLocked := true },
      store := st, decryptAttempted := att }
  else
    { thrown := none,
      state := { s with isLoading := false },
      store := st, decryptAttempted := att }

/-- The `initialize()` action of the wallet store (embedded under the
name `initializeStore`). -/
def initializeStore (now fresh : Nat) (s : WalletState)
    (st : LocalStorage) : StepResult :=
  if s.wallets.length > 0 ∧ s.isLocked = false then
    { thrown := none, state := s, store := st }
  else
    let s1 := { s with isLoading := true, error := none }
    if hasStoredWallets st = false then
      { thrown := none,
        state := { s1 with isLoading := false, isLocked := false },
        store := st }
    else
      let g := getValidSession now st
      match g.1 with
      | none => initFinishLocked s1 g.2 false
      | some session =>
        let password := derivePasswordFromCredential session.credentialId
        let r := retrieveWallets password fresh g.2
        match r.1 with
        | Except.error _ => initFinishLocked s1 (clearSession r.2) true
        | Except.ok decryptedWallets =>
          if decryptedWallets.length > 0 then
            let activeAddress := retrieveActiveWallet r.2
            let activeWallet := pickActiveWallet activeAddress decryptedWallets
            let st2 := createSession session.credentialId now r.2
            let s2 : WalletState :=
              { s1 with wallets := decryptedWallets,
                        activeWallet := activeWallet,
                        isLocked := false, isLoading := false }
            { thrown := none, state := s2, store := st2,
              decryptAttempted := true }
          else initFinishLocked s1 r.2 true

/-! ### Key utilities (`src/lib/crypto/keys.ts`) -/

/-- Models the external `@noble/hashes` digest `keccak_256`: an arbitrary
fixed deterministic function returning 32 bytes.  Every theorem below
depends only on determinism and on the digest being a list of 32 bytes,
so each holds for the real Keccak-256 as well. -/
def keccak_256 (input : List Nat) : List Nat :=
  (List.range 32).map
    (fun i => (input.foldl (fun a b => a * 31 + b + 1) (i + 7)) % 256)

/-- The hex character (code unit) for a nibble, lowercase as produced by
`bytesToHex` of `@noble/hashes`. -/
def hexDigitCode (n : Nat) : Nat :=
  if n < 10 then 48 + n else 87 + n

/-- `bytesToHex` of `@noble/hashes`: two lowercase hex characters per
byte. -/
def bytesToHex (bytes : List Nat) : List Nat :=
  (bytes.map (fun b => [hexDigitCode (b / 16), hexDigitCode (b % 16)])).flatten

/-- `deriveAddressFromPublicKey(publicKey)` over byte lists: validate the
65-byte 0x04-prefixed uncompressed key (else the error is wrapped as
`KEY_GENERATION_FAILED`), strip the prefix, Keccak-256 hash the remaining
64 bytes, keep the last 20 hash bytes and render them as a 0x-prefixed
hex string (code units 48 and 120 are the characters 0 and x). -/
def deriveAddressFromPublicKey (publicKey : List Nat) :
    Except WalletErrorCode (List Nat) :=
  if publicKey.length ≠ 65 ∨ publicKey.head? ≠ some 4 then
    Except.error WalletErrorCode.KEY_GENERATION_FAILED
  else
    let keyBody := publicKey.drop 1
    let hash := keccak_256 keyBody
    let addressBytes := hash.drop (hash.length - 20)
    Except.ok (48 :: 120 :: bytesToHex addressBytes)

/-- Code units matched by the hex character class of the
`isValidAddress` regular expression (digits, a-f, A-F). -/
def isHexDigitCode (n : Nat) : Bool :=
  (48 ≤ n && n ≤ 57) || (97 ≤ n && n ≤ 102) || (65 ≤ n && n ≤ 70)

/-- `isValidAddress(address)`: 0x followed by exactly 40 hex
characters. -/
def isValidAddress (address : List Nat) : Bool :=
  address.length == 42 && address.take 2 == [48, 120] &&
    (address.drop 2).all isHexDigitCode

/-- JavaScript `toLowerCase`, per ASCII code unit. -/
def toLowerCode (n : Nat) : Nat := if 65 ≤ n && n ≤ 90 then n + 32 else n

/-- JavaScript `toUpperCase`, per ASCII code unit. -/
def toUpperCode (n : Nat) : Nat := if 97 ≤ n && n ≤ 122 then n - 32 else n

/-- `parseInt(c, 16)` on one hex character; non-hex characters give 0,
which takes the same branch as the NaN of the source (`NaN >= 8` is
false). -/
def hexVal (n : Nat) : Nat :=
  if 48 ≤ n && n ≤ 57 then n - 48
  else if 97 ≤ n && n ≤ 102 then n - 87
  else if 65 ≤ n && n ≤ 70 then n - 55
  else 0

/-- `toChecksumAddress(address)`: validate, lowercase and strip the 0x
prefix, Keccak-256 hash the lowercase address, then uppercase exactly the
characters whose corresponding hash nibble is at least 8. -/
def toChecksumAddress (address : List Nat) :
    Except WalletErrorCode (List Nat) :=
  if isValidAddress address = false then
    Except.error WalletErrorCode.INVALID_ADDRESS
  else
    let addr := (address.map toLowerCode).drop 2
    let hash := bytesToHex (keccak_256 addr)
    let checksum :=
      (addr.zip hash).map
        (fun p => if 8 ≤ hexVal p.2 then toUpperCode p.1 else p.1)
    Except.ok (48 :: 120 :: checksum)

/-! ## Theorems

### C3 — encrypt/decrypt round trip -/

/-- C3: for every JSON-serialisable payload P and password W, decrypting
`encrypt(P, deriveKey(W, salt))` with `deriveKey(W, salt)` yields P
(AES-GCM with the random IV prepended, over the PBKDF2-derived key). -/
theorem encrypt_decrypt_roundtrip {α : Type} (payload : α)
    (password : String) (salt iv : Nat) :
    decrypt (encrypt payload (deriveKey password salt) iv)
      (deriveKey password salt) = some payload := by
  simp [decrypt, encrypt]

/-! ### C4 — wrong password never decrypts -/

/-- C4: with the salt and an encrypted wallet blob persisted under
password `p`, `retrieveWallets` with any password `q ≠ p` fails with
`DECRYPTION_FAILED` and never returns a wallet list. -/
theorem retrieveWallets_wrong_password (wallets : List Wallet)
    (p q : String) (salt iv fresh : Nat) (st : LocalStorage)
    (hsalt : st.skypier_salt = some salt)
    (hblob : st.skypier_wallets = some (encrypt wallets (deriveKey p salt) iv))
    (hne : q ≠ p) :
    (retrieveWallets q fresh st).1 = Except.error "DECRYPTION_FAILED" ∧
    ∀ ws, (retrieveWallets q fresh st).1 ≠ Except.ok ws := by
  have hkey : decrypt (encrypt wallets (deriveKey p salt) iv)
      (deriveKey q salt) = none := by
    simp only [decrypt, encrypt, deriveKey, DerivedKey.mk.injEq]
    rw [if_neg]
    rintro ⟨h1, -⟩
    exact hne h1.symm
  have h1 : (retrieveWallets q fresh st).1 =
      Except.error "DECRYPTION_FAILED" := by
    simp [retrieveWallets, hblob, getSalt, hsalt, hkey]
  exact ⟨h1, fun ws hws => by rw [h1] at hws; exact Except.noConfusion hws⟩

def c4store : LocalStorage :=
  { skypier_salt := some 1,
    skypier_wallets := some (encrypt [] (deriveKey "a" 1) 0) }

theorem retrieveWallets_wrong_password_witness :
    ("b" : String) ≠ "a" ∧
    (retrieveWallets "b" 0 c4store).1 = Except.error "DECRYPTION_FAILED" :=
  ⟨by decide,
   (retrieveWallets_wrong_password [] "a" "b" 1 0 0 c4store rfl rfl
      (by decide)).1⟩

/-! ### C10 — lock() touches only the session ticket -/

/-- C10: `lock()` removes the session ticket, clears the in-memory list
and selection and sets the lock flag, while every other persisted key —
wallet blob, salt, credential map, active-wallet pointer and
last-credential-id pointer — is unchanged; hence `hasStoredWallets` and
the result of a later `retrieveWallets` are unchanged. -/
theorem lock_frame (s : WalletState) (st : LocalStorage) :
    (lock s st).store.skypier_wallets = st.skypier_wallets ∧
    (lock s st).store.skypier_salt = st.skypier_salt ∧
    (lock s st).store.skypier_credentials = st.skypier_credentials ∧
    (lock s st).store.skypier_active_wallet = st.skypier_active_wallet ∧
    (lock s st).store.skypier_last_credential_id =
      st.skypier_last_credential_id ∧
    (lock s st).store.skypier_session = none ∧
    hasStoredWallets (lock s st).store = hasStoredWallets st ∧
    (∀ p fresh, (retrieveWallets p fresh (lock s st).store).1 =
      (retrieveWallets p fresh st).1) ∧
    (lock s st).state.isLocked = true ∧
    (lock s st).state.wallets = [] ∧
    (lock s st).state.activeWallet = none ∧
    (lock s st).thrown = none := by
  refine ⟨rfl, rfl, rfl, rfl, rfl, rfl, rfl, ?_, rfl, rfl, rfl, rfl⟩
  intro p fresh
  simp only [lock, clearSession]
  cases h : st.skypier_wallets with
  | none => simp [retrieveWallets, h]
  | some blob =>
    cases hs : st.skypier_salt with
    | none =>
      cases hd : decrypt blob (deriveKey p fresh) <;>
        simp [retrieveWallets, h, getSalt, hs, hd]
    | some salt =>
      cases hd : decrypt blob (deriveKey p salt) <;>
        simp [retrieveWallets, h, getSalt, hs, hd]

/-! ### C6 — clearAllData / reset coverage of persisted keys -/

def c6store : LocalStorage :=
  { skypier_wallets := some (encrypt [] (deriveKey "p" 1) 0),
    skypier_active_wallet := some "0xabc",
    skypier_credentials := some (encrypt [("0xabc", "c1")] (deriveKey "p" 1) 0),
    skypier_salt := some 1,
    skypier_session := some ({ expiresAt := 99, credentialId := "c1" }),
    skypier_last_credential_id := some "c1" }

/-- C6 counterexample: on a store holding all six persisted keys,
`reset()` (which calls `clearAllData()`) leaves the session ticket and
the last-used-credential-id pointer in place, so `clearAllData` does not
remove every persisted vault key and `reset` does not return the
key-value store to the fresh-install baseline. -/
theorem clearAllData_leaves_keys_cex :
    (reset initialState c6store).store.skypier_session =
      some ({ expiresAt := 99, credentialId := "c1" }) ∧
    (reset initialState c6store).store.skypier_last_credential_id =
      some "c1" ∧
    (reset initialState c6store).store ≠ emptyStorage := by
  refine ⟨rfl, rfl, ?_⟩
  intro h
  have := congrArg LocalStorage.skypier_last_credential_id h
  simp [reset, clearAllData, c6store, emptyStorage] at this

/-- C6 (amended): `clearAllData()` removes exactly the four keys of the
storage service — wallet blob, active-wallet address, credential map and
salt — and `reset()` restores the initial in-memory state and leaves
`hasStoredWallets` false; the session ticket and the
last-used-credential-id pointer are not removed and survive both calls. -/
theorem clearAllData_reset_spec (s : WalletState) (st : LocalStorage) :
    (reset s st).store.skypier_wallets = none ∧
    (reset s st).store.skypier_active_wallet = none ∧
    (reset s st).store.skypier_credentials = none ∧
    (reset s st).store.skypier_salt = none ∧
    (reset s st).store.skypier_session = st.skypier_session ∧
    (reset s st).store.skypier_last_credential_id =
      st.skypier_last_credential_id ∧
    (reset s st).state = initialState ∧
    hasStoredWallets (clearAllData st) = false ∧
    (reset s st).store = clearAllData st := by
  exact ⟨rfl, rfl, rfl, rfl, rfl, rfl, rfl, rfl, rfl⟩

/-! ### C8 — address derivation from a public key -/

theorem keccak_256_length (input : List Nat) :
    (keccak_256 input).length = 32 := by
  simp [keccak_256]

theorem keccak_256_mem_lt (input : List Nat) :
    ∀ b ∈ keccak_256 input, b < 256 := by
  intro b hb
  simp only [keccak_256, List.mem_map] at hb
  obtain ⟨i, -, rfl⟩ := hb
  exact Nat.mod_lt _ (by norm_num)

theorem bytesToHex_length (bytes : List Nat) :
    (bytesToHex bytes).length = 2 * bytes.length := by
  induction bytes with
  | nil => simp [bytesToHex]
  | cons b bs ih =>
    simp only [bytesToHex, List.map_cons, List.flatten_cons] at ih ⊢
    simp [ih]
    omega

theorem hexDigitCode_isHex (n : Nat) (h : n < 16) :
    isHexDigitCode (hexDigitCode n) = true := by
  simp only [hexDigitCode, isHexDigitCode, Bool.or_eq_true, Bool.and_eq_true,
    decide_eq_true_eq]
  split <;> omega

theorem bytesToHex_all_hex (bytes : List Nat)
    (h : ∀ b ∈ bytes, b < 256) :
    ∀ c ∈ bytesToHex bytes, isHexDigitCode c = true := by
  intro c hc
  simp only [bytesToHex, List.mem_flatten, List.mem_map] at hc
  obtain ⟨l, ⟨b, hb, rfl⟩, hcl⟩ := hc
  have hblt := h b hb
  simp only [List.mem_cons, List.not_mem_nil, or_false] at hcl
  rcases hcl with h1 | h1
  · rw [h1]; exact hexDigitCode_isHex _ (by omega)
  · rw [h1]; exact hexDigitCode_isHex _ (Nat.mod_lt _ (by norm_num))

/-- C8: `deriveAddressFromPublicKey` rejects any input that is not a
65-byte key with leading byte 0x04 with `KEY_GENERATION_FAILED`;
otherwise it returns exactly the 0x-prefixed hex rendering of the low 20
bytes of the Keccak-256 hash of the 64-byte key body, and every
successful output is a 0x-prefixed string of 40 hex characters
(determinism is immediate: the embedding is a function of the key). -/
theorem deriveAddressFromPublicKey_spec (publicKey : List Nat) :
    (publicKey.length = 65 ∧ publicKey.head? = some 4 →
      deriveAddressFromPublicKey publicKey =
        Except.ok (48 :: 120 ::
          bytesToHex ((keccak_256 (publicKey.drop 1)).drop 12))) ∧
    (¬(publicKey.length = 65 ∧ publicKey.head? = some 4) →
      deriveAddressFromPublicKey publicKey =
        Except.error WalletErrorCode.KEY_GENERATION_FAILED) ∧
    (∀ out, deriveAddressFromPublicKey publicKey = Except.ok out →
      out.length = 42 ∧ out.take 2 = [48, 120] ∧
      (out.drop 2).all isHexDigitCode = true) := by
  refine ⟨?_, ?_, ?_⟩
  · rintro ⟨hlen, hhd⟩
    simp [deriveAddressFromPublicKey, hlen, hhd, keccak_256_length]
  · intro h
    rw [deriveAddressFromPublicKey, if_pos]
    by_contra hc
    push_neg at hc
    exact h ⟨hc.1, hc.2⟩
  · intro out hout
    rw [deriveAddressFromPublicKey] at hout
    split at hout
    · cases hout
    · rename_i hcond
      push_neg at hcond
      injection hout with hout
      subst hout
      have hdroplen :
          ((keccak_256 (publicKey.drop 1)).drop
            ((keccak_256 (publicKey.drop 1)).length - 20)).length = 20 := by
        rw [List.length_drop, keccak_256_length]
      refine ⟨?_, rfl, ?_⟩
      · simp [bytesToHex_length, keccak_256_length]
      · simp only [List.drop_succ_cons, List.drop_zero, List.all_eq_true]
        intro c hc
        refine bytesToHex_all_hex _ ?_ c hc
        intro b hb
        exact keccak_256_mem_lt _ b (List.mem_of_mem_drop hb)

def pkA : List Nat := 4 :: List.replicate 64 7

theorem deriveAddressFromPublicKey_spec_witness :
    (pkA.length = 65 ∧ pkA.head? = some 4) ∧
    deriveAddressFromPublicKey pkA =
      Except.ok (48 :: 120 ::
        bytesToHex ((keccak_256 (pkA.drop 1)).drop 12)) :=
  ⟨⟨by decide, by decide⟩,
   (deriveAddressFromPublicKey_spec pkA).1 ⟨by decide, by decide⟩⟩

/-! ### C9 — checksum-address idempotence -/

/-- The code units `toLowerCode` produces from a hex character: digits
and lowercase a-f. -/
def isLowerHexCode (n : Nat) : Bool :=
  (48 ≤ n && n ≤ 57) || (97 ≤ n && n ≤ 102)

theorem toLowerCode_hex (n : Nat) (h : isHexDigitCode n = true) :
    isLowerHexCode (toLowerCode n) = true := by
  simp only [isHexDigitCode, Bool.or_eq_true, Bool.and_eq_true,
    decide_eq_true_eq] at h
  rw [toLowerCode]
  split <;> rename_i hc <;>
    simp only [Bool.and_eq_true, decide_eq_true_eq] at hc <;>
    simp only [isLowerHexCode, Bool.or_eq_true, Bool.and_eq_true,
      decide_eq_true_eq] <;> omega

theorem toLowerCode_fix (n : Nat) (h : isLowerHexCode n = true) :
    toLowerCode n = n := by
  simp only [isLowerHexCode, Bool.or_eq_true, Bool.and_eq_true,
    decide_eq_true_eq] at h
  rw [toLowerCode]
  split <;> rename_i hc <;>
    simp only [Bool.and_eq_true, decide_eq_true_eq] at hc <;> omega

theorem toLower_toUpper_fix (n : Nat) (h : isLowerHexCode n = true) :
    toLowerCode (toUpperCode n) = n := by
  simp only [isLowerHexCode, Bool.or_eq_true, Bool.and_eq_true,
    decide_eq_true_eq] at h
  rw [toUpperCode]
  split <;> rename_i hc <;>
    simp only [Bool.and_eq_true, decide_eq_true_eq] at hc <;>
    rw [toLowerCode] <;> split <;> rename_i hc2 <;>
    simp only [Bool.and_eq_true, decide_eq_true_eq] at hc2 <;> omega

theorem toUpperCode_hex (n : Nat) (h : isLowerHexCode n = true) :
    isHexDigitCode (toUpperCode n) = true := by
  simp only [isLowerHexCode, Bool.or_eq_true, Bool.and_eq_true,
    decide_eq_true_eq] at h
  rw [toUpperCode]
  split <;> rename_i hc <;>
    simp only [Bool.and_eq_true, decide_eq_true_eq] at hc <;>
    simp only [isHexDigitCode, Bool.or_eq_true, Bool.and_eq_true,
      decide_eq_true_eq] <;> omega

theorem lowerHex_isHex (n : Nat) (h : isLowerHexCode n = true) :
    isHexDigitCode n = true := by
  simp only [isLowerHexCode, Bool.or_eq_true, Bool.and_eq_true,
    decide_eq_true_eq] at h
  simp only [isHexDigitCode, Bool.or_eq_true, Bool.and_eq_true,
    decide_eq_true_eq]
  omega

theorem isValidAddress_iff (address : List Nat) :
    isValidAddress address = true ↔
      address.length = 42 ∧ address.take 2 = [48, 120] ∧
      ∀ c ∈ address.drop 2, isHexDigitCode c = true := by
  simp [isValidAddress, List.all_eq_true, and_assoc]

/-- Unfolding of `toChecksumAddress` on a valid address. -/
theorem toChecksumAddress_eq_of_valid (address : List Nat)
    (h : isValidAddress address = true) :
    toChecksumAddress address = Except.ok (48 :: 120 ::
      (((address.map toLowerCode).drop 2).zip
        (bytesToHex (keccak_256 ((address.map toLowerCode).drop 2)))).map
        (fun p => if 8 ≤ hexVal p.2 then toUpperCode p.1 else p.1)) := by
  rw [toChecksumAddress, if_neg (by simp [h])]

/-- A second application of `toChecksumAddress` to an output built from a
lowercase 40-character hex core reproduces that output. -/
theorem toChecksumAddress_second (addr hash checksum : List Nat)
    (hmem : ∀ c ∈ addr, isLowerHexCode c = true)
    (hlen : addr.length = 40)
    (hashlen : hash.length = 64)
    (hchk : checksum = (addr.zip hash).map
      (fun p => if 8 ≤ hexVal p.2 then toUpperCode p.1 else p.1))
    (hhash : hash = bytesToHex (keccak_256 addr)) :
    toChecksumAddress (48 :: 120 :: checksum) =
      Except.ok (48 :: 120 :: checksum) := by
  have hchk_len : checksum.length = 40 := by
    rw [hchk, List.length_map, List.length_zip, hlen, hashlen]
    omega
  have hchk_mem : ∀ c ∈ checksum, isHexDigitCode c = true := by
    intro c hc
    rw [hchk] at hc
    obtain ⟨q, hq, rfl⟩ := List.mem_map.mp hc
    have hl := hmem q.1 (List.of_mem_zip hq).1
    by_cases h8 : 8 ≤ hexVal q.2
    · rw [if_pos h8]; exact toUpperCode_hex _ hl
    · rw [if_neg h8]; exact lowerHex_isHex _ hl
  have hr_valid : isValidAddress (48 :: 120 :: checksum) = true := by
    rw [isValidAddress_iff]
    refine ⟨by simp [hchk_len], rfl, ?_⟩
    simpa using hchk_mem
  have hlower_cs : checksum.map toLowerCode = addr := by
    rw [hchk, List.map_map]
    have hpt : ∀ q ∈ addr.zip hash,
        (toLowerCode ∘ fun p =>
          if 8 ≤ hexVal p.2 then toUpperCode p.1 else p.1) q = Prod.fst q := by
      intro q hq
      have hl := hmem q.1 (List.of_mem_zip hq).1
      simp only [Function.comp_apply]
      by_cases h8 : 8 ≤ hexVal q.2
      · rw [if_pos h8]; exact toLower_toUpper_fix _ hl
      · rw [if_neg h8]; exact toLowerCode_fix _ hl
    rw [List.map_congr_left hpt, List.map_fst_zip addr hash (by omega)]
  have haddr2 : ((48 :: 120 :: checksum).map toLowerCode).drop 2 = addr := by
    simp only [List.map_cons, List.drop_succ_cons, List.drop_zero]
    exact hlower_cs
  rw [toChecksumAddress_eq_of_valid _ hr_valid, haddr2, ← hhash, ← hchk]

/-- C9: `toChecksumAddress` is idempotent — on every valid 0x-prefixed
40-hex-character address it succeeds, and applying it again to its own
output reproduces the same string. -/
theorem toChecksumAddress_idempotent (address : List Nat)
    (h : isValidAddress address = true) :
    ∃ r, toChecksumAddress address = Except.ok r ∧
         toChecksumAddress r = Except.ok r := by
  obtain ⟨hlen, htake, hhex⟩ := (isValidAddress_iff address).mp h
  refine ⟨_, toChecksumAddress_eq_of_valid address h, ?_⟩
  have haddr_eq : (address.map toLowerCode).drop 2 =
      (address.drop 2).map toLowerCode := by
    rw [List.map_drop]
  refine toChecksumAddress_second ((address.map toLowerCode).drop 2)
      (bytesToHex (keccak_256 ((address.map toLowerCode).drop 2))) _
      ?_ ?_ ?_ rfl rfl
  · intro c hc
    rw [haddr_eq] at hc
    obtain ⟨d, hd, rfl⟩ := List.mem_map.mp hc
    exact toLowerCode_hex d (hhex d hd)
  · rw [haddr_eq, List.length_map, List.length_drop, hlen]
  · rw [bytesToHex_length, keccak_256_length]

def addrA : List Nat := 48 :: 120 :: List.replicate 40 97

theorem toChecksumAddress_idempotent_witness :
    isValidAddress addrA = true ∧
    ∃ r, toChecksumAddress addrA = Except.ok r ∧
         toChecksumAddress r = Except.ok r :=
  ⟨by decide, toChecksumAddress_idempotent addrA (by decide)⟩

/-! ### C1 — unlock behaviour -/

/-- C1: `unlock` rejects an empty credential id with
`CREDENTIAL_ID_REQUIRED` before any decryption attempt; a failed
platform assertion rejects before any decryption attempt; with a live
assertion it derives the password from the credential id and decrypts
the persisted blob, rejecting `NO_WALLETS_FOUND` when the decrypted list
is empty and rethrowing `DECRYPTION_FAILED` when decryption fails; on
success it writes a fresh five-minute session ticket and the state
becomes unlocked with the decrypted list; and every failure forces
`isLocked = true` and surfaces a `WEBAUTHN_AUTH_FAILED` error. -/
theorem unlock_spec (credentialId : String) (authOk : Bool) (now fresh : Nat)
    (s : WalletState) (st : LocalStorage) :
    (credentialId = "" →
      (unlock credentialId authOk now fresh s st).thrown =
        some "CREDENTIAL_ID_REQUIRED" ∧
      (unlock credentialId authOk now fresh s st).decryptAttempted = false) ∧
    (credentialId ≠ "" → authOk = false →
      (unlock credentialId authOk now fresh s st).thrown =
        some "Authentication failed" ∧
      (unlock credentialId authOk now fresh s st).decryptAttempted = false) ∧
    (∀ msg, credentialId ≠ "" → authOk = true →
      (retrieveWallets (derivePasswordFromCredential credentialId) fresh
        st).1 = Except.error msg →
      (unlock credentialId authOk now fresh s st).thrown = some msg) ∧
    (∀ ws, credentialId ≠ "" → authOk = true →
      (retrieveWallets (derivePasswordFromCredential credentialId) fresh
        st).1 = Except.ok ws →
      (ws = [] →
        (unlock credentialId authOk now fresh s st).thrown =
          some "NO_WALLETS_FOUND") ∧
      (ws ≠ [] →
        (unlock credentialId authOk now fresh s st).thrown = none ∧
        (unlock credentialId authOk now fresh s st).state.isLocked = false ∧
        (unlock credentialId authOk now fresh s st).state.wallets = ws ∧
        (unlock credentialId authOk now fresh s st).state.activeWallet =
          pickActiveWallet (retrieveActiveWallet
            (retrieveWallets (derivePasswordFromCredential credentialId)
              fresh st).2) ws ∧
        (unlock credentialId authOk now fresh s st).store.skypier_session =
          some ({ expiresAt := now + SESSION_TIMEOUT_MS,
                  credentialId := credentialId }))) ∧
    ((unlock credentialId authOk now fresh s st).thrown ≠ none →
      (unlock credentialId authOk now fresh s st).state.isLocked = true ∧
      ∃ m, (unlock credentialId authOk now fresh s st).thrown = some m ∧
        (unlock credentialId authOk now fresh s st).state.error =
          some ({ message := "Failed to unlock wallet",
                  code := WalletErrorCode.WEBAUTHN_AUTH_FAILED,
                  details := m })) := by
  refine ⟨?_, ?_, ?_, ?_, ?_⟩
  · intro hc
    simp [unlock, hc, unlockFailure]
  · intro hc hauth
    simp [unlock, hc, hauth, unlockFailure]
  · intro msg hc hauth hrw
    simp [unlock, hc, hauth, hrw, unlockFailure]
  · intro ws hc hauth hrw
    constructor
    · intro hws
      subst hws
      simp [unlock, hc, hauth, hrw, unlockFailure]
    · intro hws
      have hlen : ¬ ws.length = 0 := by
        simpa [List.length_eq_zero] using hws
      simp [unlock, hc, hauth, hrw, hlen, createSession]
  · intro hth
    by_cases hc : credentialId = ""
    · refine ⟨?_, "CREDENTIAL_ID_REQUIRED", ?_, ?_⟩ <;>
        simp [unlock, hc, unlockFailure]
    · cases authOk with
      | false =>
        refine ⟨?_, "Authentication failed", ?_, ?_⟩ <;>
          simp [unlock, hc, unlockFailure]
      | true =>
        cases hrw : (retrieveWallets (derivePasswordFromCredential
            credentialId) fresh st).1 with
        | error msg =>
          refine ⟨?_, msg, ?_, ?_⟩ <;>
            simp [unlock, hc, hrw, unlockFailure]
        | ok ws =>
          by_cases hws : ws.length = 0
          · refine ⟨?_, "NO_WALLETS_FOUND", ?_, ?_⟩ <;>
              simp [unlock, hc, hrw, hws, unlockFailure]
          · exfalso
            apply hth
            simp [unlock, hc, hrw, hws]

theorem unlock_spec_witness :
    (unlock "" true 0 0 initialState emptyStorage).thrown =
      some "CREDENTIAL_ID_REQUIRED" ∧
    (unlock "" true 0 0 initialState emptyStorage).decryptAttempted =
      false :=
  (unlock_spec "" true 0 0 initialState emptyStorage).1 rfl

/-! ### C2 — initialize behaviour -/

theorem retrieveWallets_preserves (p : String) (fresh : Nat)
    (st : LocalStorage) :
    (retrieveWallets p fresh st).2.skypier_wallets = st.skypier_wallets ∧
    (retrieveWallets p fresh st).2.skypier_session = st.skypier_session ∧
    (retrieveWallets p fresh st).2.skypier_active_wallet =
      st.skypier_active_wallet ∧
    (retrieveWallets p fresh st).2.skypier_credentials =
      st.skypier_credentials ∧
    (retrieveWallets p fresh st).2.skypier_last_credential_id =
      st.skypier_last_credential_id := by
  rw [retrieveWallets]
  cases h : st.skypier_wallets with
  | none => simp [h]
  | some blob =>
    rw [getSalt]
    cases hs : st.skypier_salt with
    | none =>
      cases hd : decrypt blob (deriveKey p fresh) <;> simp [h, hd]
    | some salt =>
      cases hd : decrypt blob (deriveKey p salt) <;> simp [h, hd]

theorem getValidSession_some (now : Nat) (st : LocalStorage)
    (sess : SessionData)
    (h : (getValidSession now st).1 = some sess) :
    (getValidSession now st).2 = st ∧ st.skypier_session = some sess := by
  cases hs : st.skypier_session with
  | none => simp [getValidSession, hs] at h
  | some sd =>
    by_cases hexp : now > sd.expiresAt
    · simp [getValidSession, hs, hexp] at h
    · simp only [getValidSession, hs] at h ⊢
      rw [if_neg hexp] at h
      rw [if_neg hexp]
      exact ⟨rfl, h⟩

/-- C2 (amended): from the initial in-memory state, `initialize` with no
persisted wallets ends unlocked with an empty list, no decryption
attempted and the store untouched; with persisted wallets and no valid
ticket it ends locked with no decryption attempted; with persisted
wallets and a valid ticket it derives the password from the ticket's
credential id and decrypts — a decryption failure clears the ticket and
ends locked, success with a nonempty list slides the ticket and ends
unlocked with that list, and success with an empty decrypted list ends
locked with the ticket left untouched (neither slid nor cleared). -/
theorem initializeStore_spec (now fresh : Nat) (st : LocalStorage) :
    (hasStoredWallets st = false →
      (initializeStore now fresh initialState st).state.isLocked = false ∧
      (initializeStore now fresh initialState st).state.wallets = [] ∧
      (initializeStore now fresh initialState st).decryptAttempted = false ∧
      (initializeStore now fresh initialState st).store = st) ∧
    (hasStoredWallets st = true → (getValidSession now st).1 = none →
      (initializeStore now fresh initialState st).state.isLocked = true ∧
      (initializeStore now fresh initialState st).state.wallets = [] ∧
      (initializeStore now fresh initialState st).decryptAttempted =
        false) ∧
    (∀ sess, hasStoredWallets st = true →
      (getValidSession now st).1 = some sess →
      (∀ msg, (retrieveWallets (derivePasswordFromCredential
          sess.credentialId) fresh st).1 = Except.error msg →
        (initializeStore now fresh initialState st).state.isLocked = true ∧
        (initializeStore now fresh initialState st).store.skypier_session =
          none ∧
        (initializeStore now fresh initialState st).decryptAttempted =
          true) ∧
      (∀ ws, (retrieveWallets (derivePasswordFromCredential
          sess.credentialId) fresh st).1 = Except.ok ws →
        (ws ≠ [] →
          (initializeStore now fresh initialState st).state.isLocked =
            false ∧
          (initializeStore now fresh initialState st).state.wallets = ws ∧
          (initializeStore now fresh initialState
            st).store.skypier_session =
            some ({ expiresAt := now + SESSION_TIMEOUT_MS,
                    credentialId := sess.credentialId }) ∧
          (initializeStore now fresh initialState st).decryptAttempted =
            true) ∧
        (ws = [] →
          (initializeStore now fresh initialState st).state.isLocked =
            true ∧
          (initializeStore now fresh initialState
            st).store.skypier_session = st.skypier_session))) := by
  refine ⟨?_, ?_, ?_⟩
  · intro hnone
    simp [initializeStore, initialState, hnone]
  · intro hsome hsess
    simp [initializeStore, initialState, hsome, hsess, initFinishLocked]
  · intro sess hsome hsess
    obtain ⟨hg2, -⟩ := getValidSession_some now st sess hsess
    constructor
    · intro msg hrw
      simp [initializeStore, initialState, hsome, hsess, hg2, hrw,
        initFinishLocked, clearSession]
    · intro ws hrw
      constructor
      · intro hws
        have hlen : ws.length > 0 := by
          cases ws with
          | nil => exact absurd rfl hws
          | cons a l => simp
        simp [initializeStore, initialState, hsome, hsess, hg2, hrw, hlen,
          createSession]
      · intro hws
        subst hws
        have hpres := (retrieveWallets_preserves
          (derivePasswordFromCredential sess.credentialId) fresh st).2.1
        simp [initializeStore, initialState, hsome, hsess, hg2, hrw,
          initFinishLocked, hpres]

theorem initializeStore_spec_witness :
    hasStoredWallets emptyStorage = false ∧
    ((initializeStore 0 0 initialState emptyStorage).state.isLocked =
      false ∧
    (initializeStore 0 0 initialState emptyStorage).state.wallets = [] ∧
    (initializeStore 0 0 initialState emptyStorage).decryptAttempted =
      false ∧
    (initializeStore 0 0 initialState emptyStorage).store =
      emptyStorage) :=
  ⟨rfl, (initializeStore_spec 0 0 emptyStorage).1 rfl⟩

def stEmptyList : LocalStorage :=
  { skypier_wallets :=
      some (encrypt [] (deriveKey (derivePasswordFromCredential "c1") 1) 0),
    skypier_salt := some 1,
    skypier_session := some ({ expiresAt := 100, credentialId := "c1" }) }

/-- C2 counterexample: with a persisted wallet blob whose decryption
succeeds with the empty list (the state left by removing the last
wallet), plus a valid unexpired ticket, the claim demands sliding the
ticket and ending Unlocked on decryption success — but `initialize` ends
Locked and leaves the ticket exactly as it was. -/
theorem initializeStore_empty_list_cex :
    hasStoredWallets stEmptyList = true ∧
    (getValidSession 0 stEmptyList).1 =
      some ({ expiresAt := 100, credentialId := "c1" }) ∧
    (retrieveWallets (derivePasswordFromCredential "c1") 1 stEmptyList).1 =
      Except.ok [] ∧
    (initializeStore 0 1 initialState stEmptyList).state.isLocked = true ∧
    (initializeStore 0 1 initialState stEmptyList).store.skypier_session =
      some ({ expiresAt := 100, credentialId := "c1" }) := by
  exact ⟨rfl, rfl, rfl, rfl, rfl⟩

/-! ### C7 — vault invariant over all reachable states -/

/-- In-memory invariant: addresses are unique in the wallet list, and
the active wallet, when set, is a member of the list. -/
def StateInv (s : WalletState) : Prop :=
  (s.wallets.map Wallet.address).Nodup ∧
  ∀ w, s.activeWallet = some w → w ∈ s.wallets

/-- Persisted invariant: the plaintext behind the wallet blob, if the
blob exists, has unique addresses. -/
def StoreInv (st : LocalStorage) : Prop :=
  ∀ blob, st.skypier_wallets = some blob →
    (blob.payload.map Wallet.address).Nodup

/-- The states reachable from a fresh install by any sequence of store
actions, under arbitrary arguments, clock values, entropy and
authenticator outcomes. -/
inductive Reachable : WalletState → LocalStorage → Prop
  | start : Reachable initialState emptyStorage
  | stepInit (now fresh : Nat) {s : WalletState} {st : LocalStorage}
      (h : Reachable s st) :
      Reachable (initializeStore now fresh s st).state
        (initializeStore now fresh s st).store
  | stepAdd (w : Wallet) (now fresh iv1 iv2 : Nat)
      (encCredOk encWalletsOk : Bool) {s : WalletState}
      {st : LocalStorage} (h : Reachable s st) :
      Reachable
        (addWallet w now fresh iv1 iv2 encCredOk encWalletsOk s st).state
        (addWallet w now fresh iv1 iv2 encCredOk encWalletsOk s st).store
  | stepRemove (address : String) (fresh iv : Nat) (encOk : Bool)
      {s : WalletState} {st : LocalStorage} (h : Reachable s st) :
      Reachable (removeWallet address fresh iv encOk s st).state
        (removeWallet address fresh iv encOk s st).store
  | stepSetActive (address : String) {s : WalletState}
      {st : LocalStorage} (h : Reachable s st) :
      Reachable (setActiveWallet address s st).state
        (setActiveWallet address s st).store
  | stepLock {s : WalletState} {st : LocalStorage} (h : Reachable s st) :
      Reachable (lock s st).state (lock s st).store
  | stepUnlock (credentialId : String) (authOk : Bool) (now fresh : Nat)
      {s : WalletState} {st : LocalStorage} (h : Reachable s st) :
      Reachable (unlock credentialId authOk now fresh s st).state
        (unlock credentialId authOk now fresh s st).store
  | stepClearError {s : WalletState} {st : LocalStorage}
      (h : Reachable s st) : Reachable (clearError s) st
  | stepReset {s : WalletState} {st : LocalStorage} (h : Reachable s st) :
      Reachable (reset s st).state (reset s st).store

theorem stateInv_of_fields {s s' : WalletState}
    (hw : s'.wallets = s.wallets) (ha : s'.activeWallet = s.activeWallet)
    (h : StateInv s) : StateInv s' := by
  refine ⟨hw ▸ h.1, fun w hw2 => ?_⟩
  rw [hw]
  exact h.2 w (ha ▸ hw2)

theorem storeInv_of_eq {st st' : LocalStorage}
    (h : st'.skypier_wallets = st.skypier_wallets) (hinv : StoreInv st) :
    StoreInv st' := by
  intro blob hb
  rw [h] at hb
  exact hinv blob hb

theorem getValidSession_wallets (now : Nat) (st : LocalStorage) :
    (getValidSession now st).2.skypier_wallets = st.skypier_wallets := by
  rw [getValidSession]
  cases h : st.skypier_session with
  | none => rfl
  | some sd => by_cases hexp : now > sd.expiresAt <;> simp [hexp]

theorem decrypt_eq_some {α : Type} (blob : EncryptedBlob α)
    (key : DerivedKey) (x : α) (h : decrypt blob key = some x) :
    x = blob.payload := by
  rw [decrypt] at h
  split at h
  · cases h; rfl
  · cases h

/-- A successful `retrieveWallets` returns either the empty list (absent
blob) or exactly the plaintext of the stored blob. -/
theorem retrieveWallets_ok_shape (p : String) (fresh : Nat)
    (st : LocalStorage) (ws : List Wallet)
    (h : (retrieveWallets p fresh st).1 = Except.ok ws) :
    (st.skypier_wallets = none ∧ ws = []) ∨
    (∃ blob, st.skypier_wallets = some blob ∧ ws = blob.payload) := by
  cases hw : st.skypier_wallets with
  | none =>
    simp [retrieveWallets, hw] at h
    exact Or.inl ⟨rfl, h⟩
  | some blob =>
    refine Or.inr ⟨blob, rfl, ?_⟩
    simp only [retrieveWallets, hw, getSalt] at h
    cases hsalt : st.skypier_salt with
    | none =>
      simp only [hsalt] at h
      cases hd : decrypt blob (deriveKey p fresh) with
      | none => simp [hd] at h
      | some ws2 =>
        simp only [hd] at h
        simp at h
        rw [← h]
        exact decrypt_eq_some _ _ _ hd
    | some salt =>
      simp only [hsalt] at h
      cases hd : decrypt blob (deriveKey p salt) with
      | none => simp [hd] at h
      | some ws2 =>
        simp only [hd] at h
        simp at h
        rw [← h]
        exact decrypt_eq_some _ _ _ hd

theorem retrieveWallets_ok_nodup (p : String) (fresh : Nat)
    (st : LocalStorage) (hinv : StoreInv st) (ws : List Wallet)
    (h : (retrieveWallets p fresh st).1 = Except.ok ws) :
    (ws.map Wallet.address).Nodup := by
  rcases retrieveWallets_ok_shape p fresh st ws h with ⟨-, rfl⟩ | ⟨blob, hb, rfl⟩
  · simp
  · exact hinv blob hb

theorem pickActiveWallet_mem (a : Option String) (ws : List Wallet)
    (hne : ws ≠ []) (w : Wallet) (h : pickActiveWallet a ws = some w) :
    w ∈ ws := by
  cases a with
  | none =>
    cases ws with
    | nil => exact absurd rfl hne
    | cons b l =>
      simp only [pickActiveWallet, List.head?_cons, Option.some.injEq] at h
      rw [← h]; exact List.mem_cons_self _ _
  | some addr =>
    cases hf : ws.find? (fun w2 => w2.address == addr) with
    | some w2 =>
      simp only [pickActiveWallet, hf, Option.some.injEq] at h
      rw [← h]; exact List.mem_of_find?_eq_some hf
    | none =>
      cases ws with
      | nil => exact absurd rfl hne
      | cons b l =>
        simp only [pickActiveWallet, hf, List.head?_cons,
          Option.some.injEq] at h
        rw [← h]; exact List.mem_cons_self _ _

theorem preserves_lock (s : WalletState) (st : LocalStorage)
    (hst : StoreInv st) :
    StateInv (lock s st).state ∧ StoreInv (lock s st).store := by
  constructor
  · exact ⟨by simp [lock], by simp [lock]⟩
  · exact storeInv_of_eq (by simp [lock, clearSession]) hst

theorem preserves_reset (s : WalletState) (st : LocalStorage) :
    StateInv (reset s st).state ∧ StoreInv (reset s st).store := by
  constructor
  · exact ⟨by simp [reset, initialState], by simp [reset, initialState]⟩
  · intro blob hb
    simp [reset, clearAllData] at hb

theorem preserves_clearError (s : WalletState) (hs : StateInv s) :
    StateInv (clearError s) :=
  stateInv_of_fields (by simp [clearError]) (by simp [clearError]) hs

theorem preserves_setActiveWallet (address : String) (s : WalletState)
    (st : LocalStorage) (hs : StateInv s) (hst : StoreInv st) :
    StateInv (setActiveWallet address s st).state ∧
    StoreInv (setActiveWallet address s st).store := by
  cases hf : s.wallets.find? (fun w2 => w2.address == address) with
  | none =>
    constructor
    · refine stateInv_of_fields ?_ ?_ hs <;> simp [setActiveWallet, hf]
    · refine storeInv_of_eq ?_ hst; simp [setActiveWallet, hf]
  | some w2 =>
    constructor
    · constructor
      · simpa [setActiveWallet, hf] using hs.1
      · intro w hw
        simp only [setActiveWallet, hf, Option.some.injEq] at hw ⊢
        rw [← hw]
        exact List.mem_of_find?_eq_some hf
    · refine storeInv_of_eq ?_ hst
      simp [setActiveWallet, hf, storeActiveWallet]

theorem preserves_addWallet (w : Wallet) (now fresh iv1 iv2 : Nat)
    (encCredOk encWalletsOk : Bool) (s : WalletState) (st : LocalStorage)
    (hs : StateInv s) (hst : StoreInv st) :
    StateInv (addWallet w now fresh iv1 iv2 encCredOk encWalletsOk
      s st).state ∧
    StoreInv (addWallet w now fresh iv1 iv2 encCredOk encWalletsOk
      s st).store := by
  by_cases hdup :
      s.wallets.any (fun w2 => w2.address == w.address) = true
  · constructor
    · refine stateInv_of_fields ?_ ?_ hs <;>
        simp [addWallet, hdup, addWalletFailure]
    · refine storeInv_of_eq ?_ hst
      simp [addWallet, hdup, addWalletFailure]
  · rw [Bool.not_eq_true] at hdup
    have hnotin : w.address ∉ s.wallets.map Wallet.address := by
      intro hmem
      obtain ⟨w2, hw2, hw2a⟩ := List.mem_map.mp hmem
      have : s.wallets.any (fun w2 => w2.address == w.address) = true := by
        rw [List.any_eq_true]
        exact ⟨w2, hw2, by rw [hw2a]; exact beq_self_eq_true w.address⟩
      rw [hdup] at this
      cases this
    have hnodup : ((s.wallets ++ [w]).map Wallet.address).Nodup := by
      rw [List.map_append]
      refine List.Nodup.append hs.1 (List.nodup_singleton _) ?_
      intro a ha hb
      simp only [List.map_cons, List.map_nil, List.mem_singleton] at hb
      rw [hb] at ha
      exact hnotin ha
    cases hty : w.type with
    | imported =>
      constructor
      · refine stateInv_of_fields ?_ ?_ hs <;>
          simp [addWallet, hdup, hty, addWalletFailure]
      · refine storeInv_of_eq ?_ hst
        simp [addWallet, hdup, hty, addWalletFailure]
    | biometric =>
      cases encCredOk with
      | false =>
        constructor
        · refine stateInv_of_fields ?_ ?_ hs <;>
            simp [addWallet, hdup, hty, storeCredential, addWalletFailure]
        · refine storeInv_of_eq ?_ hst
          cases hsalt : st.skypier_salt <;>
            simp [addWallet, hdup, hty, storeCredential, getSalt, hsalt,
              addWalletFailure]
      | true =>
        cases encWalletsOk with
        | false =>
          constructor
          · refine stateInv_of_fields ?_ ?_ hs <;>
              simp [addWallet, hdup, hty, storeCredential, storeWallets,
                addWalletFailure]
          · refine storeInv_of_eq ?_ hst
            cases hsalt : st.skypier_salt <;>
              simp [addWallet, hdup, hty, storeCredential, storeWallets,
                getSalt, hsalt, addWalletFailure]
        | true =>
          constructor
          · constructor
            · simpa [addWallet, hdup, hty, storeCredential, storeWallets]
                using hnodup
            · intro w2 hw2
              simp [addWallet, hdup, hty, storeCredential,
                storeWallets] at hw2 ⊢
              rw [← hw2]
              exact Or.inr rfl
          · intro blob hb
            cases hsalt : st.skypier_salt with
            | none =>
              simp [addWallet, hdup, hty, storeCredential, storeWallets,
                getSalt, hsalt, createSession, storeActiveWallet] at hb
              subst hb
              simpa [encrypt] using hnodup
            | some salt =>
              simp [addWallet, hdup, hty, storeCredential, storeWallets,
                getSalt, hsalt, createSession, storeActiveWallet] at hb
              subst hb
              simpa [encrypt] using hnodup

theorem filter_wallets_nodup (s : WalletState) (address : String)
    (hs : StateInv s) :
    (((s.wallets.filter fun w2 => !(w2.address == address)).map
      Wallet.address)).Nodup :=
  hs.1.sublist ((List.filter_sublist _).map Wallet.address)

theorem storeWallets_storeInv (ws : List Wallet) (p : String)
    (fresh iv : Nat) (encOk : Bool) (st : LocalStorage)
    (hws : (ws.map Wallet.address).Nodup) (hst : StoreInv st) :
    StoreInv (storeWallets ws p fresh iv encOk st).2 := by
  cases encOk with
  | false =>
    refine storeInv_of_eq ?_ hst
    cases hsalt : st.skypier_salt <;> simp [storeWallets, getSalt, hsalt]
  | true =>
    intro blob hb
    cases hsalt : st.skypier_salt with
    | none =>
      simp [storeWallets, getSalt, hsalt] at hb
      subst hb
      simpa [encrypt] using hws
    | some salt =>
      simp [storeWallets, getSalt, hsalt] at hb
      subst hb
      simpa [encrypt] using hws

theorem preserves_removeWallet (address : String) (fresh iv : Nat)
    (encOk : Bool) (s : WalletState) (st : LocalStorage) (hs : StateInv s)
    (hst : StoreInv st) :
    StateInv (removeWallet address fresh iv encOk s st).state ∧
    StoreInv (removeWallet address fresh iv encOk s st).store := by
  cases hf : s.wallets.find? (fun w2 => w2.address == address) with
  | none =>
    constructor
    · refine stateInv_of_fields ?_ ?_ hs <;>
        simp [removeWallet, hf, removeWalletFailure]
    · refine storeInv_of_eq ?_ hst
      simp [removeWallet, hf, removeWalletFailure]
  | some wrm =>
    have hnodup := filter_wallets_nodup s address hs
    cases hty : wrm.type with
    | imported =>
      constructor
      · refine stateInv_of_fields ?_ ?_ hs <;>
          simp [removeWallet, hf, hty, removeWalletFailure]
      · refine storeInv_of_eq ?_ hst
        simp [removeWallet, hf, hty, removeWalletFailure]
    | biometric =>
      cases encOk with
      | false =>
        constructor
        · refine stateInv_of_fields ?_ ?_ hs <;>
            simp [removeWallet, hf, hty, storeWallets,
              removeWalletFailure]
        · refine storeInv_of_eq ?_ hst
          cases hsalt : st.skypier_salt <;>
            simp [removeWallet, hf, hty, storeWallets, getSalt, hsalt,
              removeWalletFailure]
      | true =>
        have hstore : StoreInv (storeWallets
            (s.wallets.filter fun w2 => !(w2.address == address))
            (derivePasswordFromCredential wrm.credentialId) fresh iv true
            st).2 :=
          storeWallets_storeInv _ _ _ _ _ _ hnodup hst
        cases hact : s.activeWallet with
        | none =>
          constructor
          · constructor
            · simpa [removeWallet, hf, hty, hact, storeWallets]
                using hnodup
            · intro w2 hw2
              simp [removeWallet, hf, hty, hact, storeWallets] at hw2
          · refine storeInv_of_eq ?_ hstore
            simp [removeWallet, hf, hty, hact, storeWallets]
        | some aw =>
          by_cases haw : aw.address = address
          · cases hhd : (s.wallets.filter
                fun w2 => !(w2.address == address)).head? with
            | none =>
              constructor
              · constructor
                · simpa [removeWallet, hf, hty, hact, haw, hhd,
                    storeWallets] using hnodup
                · intro w2 hw2
                  simp [removeWallet, hf, hty, hact, haw, hhd,
                    storeWallets] at hw2
              · refine storeInv_of_eq ?_ hstore
                simp [removeWallet, hf, hty, hact, haw, hhd,
                  storeWallets]
            | some whd =>
              constructor
              · constructor
                · simpa [removeWallet, hf, hty, hact, haw, hhd,
                    storeWallets] using hnodup
                · intro w2 hw2
                  simp [removeWallet, hf, hty, hact, haw, hhd,
                    storeWallets] at hw2 ⊢
                  have hmem := List.mem_of_mem_head?
                    (by rw [hhd]; exact rfl :
                      whd ∈ (s.wallets.filter
                        fun w3 => !(w3.address == address)).head?)
                  rw [← hw2]
                  simpa using hmem
              · refine storeInv_of_eq ?_ hstore
                simp [removeWallet, hf, hty, hact, haw, hhd,
                  storeWallets, storeActiveWallet]
          · constructor
            · constructor
              · simpa [removeWallet, hf, hty, hact, haw, storeWallets]
                  using hnodup
              · intro w2 hw2
                simp [removeWallet, hf, hty, hact, haw,
                  storeWallets] at hw2 ⊢
                have haw_mem : aw ∈ s.wallets := hs.2 aw hact
                rw [← hw2]
                exact ⟨haw_mem, haw⟩
            · refine storeInv_of_eq ?_ hstore
              simp [removeWallet, hf, hty, hact, haw, storeWallets]

theorem preserves_unlock (credentialId : String) (authOk : Bool)
    (now fresh : Nat) (s : WalletState) (st : LocalStorage)
    (hs : StateInv s) (hst : StoreInv st) :
    StateInv (unlock credentialId authOk now fresh s st).state ∧
    StoreInv (unlock credentialId authOk now fresh s st).store := by
  have hpres := (retrieveWallets_preserves
    (derivePasswordFromCredential credentialId) fresh st).1
  by_cases hc : credentialId = ""
  · constructor
    · refine stateInv_of_fields ?_ ?_ hs <;>
        simp [unlock, hc, unlockFailure]
    · refine storeInv_of_eq ?_ hst; simp [unlock, hc, unlockFailure]
  · by_cases ha : authOk = false
    · constructor
      · refine stateInv_of_fields ?_ ?_ hs <;>
          simp [unlock, hc, ha, unlockFailure]
      · refine storeInv_of_eq ?_ hst; simp [unlock, hc, ha, unlockFailure]
    · have ha' : authOk = true := by
        cases authOk
        · exact absurd rfl ha
        · rfl
      cases hr : (retrieveWallets (derivePasswordFromCredential
          credentialId) fresh st).1 with
      | error msg =>
        constructor
        · refine stateInv_of_fields ?_ ?_ hs <;>
            simp [unlock, hc, ha', hr, unlockFailure]
        · refine storeInv_of_eq ?_ hst
          simp only [unlock, hc, ha', hr]
          simpa [unlockFailure] using hpres
      | ok ws =>
        have hws_nodup := retrieveWallets_ok_nodup _ fresh st hst ws hr
        by_cases hlen : ws.length = 0
        · constructor
          · refine stateInv_of_fields ?_ ?_ hs <;>
              simp [unlock, hc, ha', hr, hlen, unlockFailure]
          · refine storeInv_of_eq ?_ hst
            simp only [unlock, hc, ha', hr]
            simpa [unlockFailure, hlen] using hpres
        · have hne : ws ≠ [] := by
            intro hnil
            rw [hnil] at hlen
            exact hlen rfl
          constructor
          · constructor
            · simpa [unlock, hc, ha', hr, hlen] using hws_nodup
            · intro w2 hw2
              simp only [unlock] at hw2 ⊢
              simp only [hc, ha', hr, hlen] at hw2 ⊢
              simp at hw2 ⊢
              exact pickActiveWallet_mem _ ws hne w2 hw2
          · refine storeInv_of_eq ?_ hst
            simp only [unlock, hc, ha', hr]
            simpa [hlen, createSession] using hpres

theorem preserves_initializeStore (now fresh : Nat) (s : WalletState)
    (st : LocalStorage) (hs : StateInv s) (hst : StoreInv st) :
    StateInv (initializeStore now fresh s st).state ∧
    StoreInv (initializeStore now fresh s st).store := by
  by_cases h0 : s.wallets.length > 0 ∧ s.isLocked = false
  · constructor
    · refine stateInv_of_fields ?_ ?_ hs <;> simp [initializeStore, h0]
    · refine storeInv_of_eq ?_ hst; simp [initializeStore, h0]
  · by_cases h1 : hasStoredWallets st = false
    · constructor
      · refine stateInv_of_fields ?_ ?_ hs <;>
          simp [initializeStore, h0, h1]
      · refine storeInv_of_eq ?_ hst; simp [initializeStore, h0, h1]
    · have hgw := getValidSession_wallets now st
      have hstg : StoreInv (getValidSession now st).2 :=
        storeInv_of_eq hgw hst
      cases hg : (getValidSession now st).1 with
      | none =>
        constructor
        · refine stateInv_of_fields ?_ ?_ hs <;>
            simp [initializeStore, h0, h1, hg, initFinishLocked] <;>
            split <;> simp
        · refine storeInv_of_eq ?_ hstg
          simp only [initializeStore, h0, h1, hg]
          simp [initFinishLocked]
          split <;> simp
      | some sess =>
        have hpres := (retrieveWallets_preserves
          (derivePasswordFromCredential sess.credentialId) fresh
          (getValidSession now st).2).1
        cases hr : (retrieveWallets (derivePasswordFromCredential
            sess.credentialId) fresh (getValidSession now st).2).1 with
        | error msg =>
          constructor
          · refine stateInv_of_fields ?_ ?_ hs <;>
              simp [initializeStore, h0, h1, hg, hr, initFinishLocked] <;>
              split <;> simp
          · refine storeInv_of_eq ?_ hstg
            simp only [initializeStore, h0, h1, hg, hr]
            simp [initFinishLocked, clearSession]
            split <;> simpa using hpres
        | ok ws =>
          have hws_nodup := retrieveWallets_ok_nodup _ fresh _ hstg ws hr
          by_cases hlen : ws.length > 0
          · have hne : ws ≠ [] := by
              intro hnil
              rw [hnil] at hlen
              simp at hlen
            constructor
            · constructor
              · simpa [initializeStore, h0, h1, hg, hr, hlen]
                  using hws_nodup
              · intro w2 hw2
                simp only [initializeStore] at hw2 ⊢
                simp only [h0, h1, hg, hr, hlen] at hw2 ⊢
                simp at hw2 ⊢
                exact pickActiveWallet_mem _ ws hne w2 hw2
            · refine storeInv_of_eq ?_ hstg
              simp only [initializeStore, h0, h1, hg, hr]
              simpa [hlen, createSession] using hpres
          · constructor
            · refine stateInv_of_fields ?_ ?_ hs <;>
                simp [initializeStore, h0, h1, hg, hr, hlen,
                  initFinishLocked] <;> split <;> simp
            · refine storeInv_of_eq ?_ hstg
              simp only [initializeStore, h0, h1, hg, hr]
              simp [initFinishLocked, hlen]
              split <;> simpa using hpres

theorem vault_invariant {s : WalletState} {st : LocalStorage}
    (h : Reachable s st) : StateInv s ∧ StoreInv st := by
  induction h with
  | start =>
    constructor
    · exact ⟨by simp [initialState], by simp [initialState]⟩
    · intro blob hb; simp [emptyStorage] at hb
  | stepInit now fresh h ih =>
    exact preserves_initializeStore now fresh _ _ ih.1 ih.2
  | stepAdd w now fresh iv1 iv2 encCredOk encWalletsOk h ih =>
    exact preserves_addWallet w now fresh iv1 iv2 encCredOk encWalletsOk
      _ _ ih.1 ih.2
  | stepRemove address fresh iv encOk h ih =>
    exact preserves_removeWallet address fresh iv encOk _ _ ih.1 ih.2
  | stepSetActive address h ih =>
    exact preserves_setActiveWallet address _ _ ih.1 ih.2
  | stepLock h ih => exact preserves_lock _ _ ih.2
  | stepUnlock credentialId authOk now fresh h ih =>
    exact preserves_unlock credentialId authOk now fresh _ _ ih.1 ih.2
  | stepClearError h ih => exact ⟨preserves_clearError _ ih.1, ih.2⟩
  | stepReset h ih => exact preserves_reset _ _

/-- C7: in every state reachable by any sequence of vault operations,
the in-memory wallet list holds at most one wallet per address, and the
active wallet, when set, is a member of the current list. -/
theorem wallet_list_invariant (s : WalletState) (st : LocalStorage)
    (h : Reachable s st) :
    (s.wallets.map Wallet.address).Nodup ∧
    ∀ w, s.activeWallet = some w → w ∈ s.wallets :=
  (vault_invariant h).1

def wA : Wallet :=
  { address := "0xaaa", type := WalletType.biometric,
    credentialId := "c1" }

theorem wallet_list_invariant_witness :
    ((addWallet wA 0 1 0 0 true true initialState
      emptyStorage).state.wallets.map Wallet.address).Nodup ∧
    ∀ w, (addWallet wA 0 1 0 0 true true initialState
        emptyStorage).state.activeWallet = some w →
      w ∈ (addWallet wA 0 1 0 0 true true initialState
        emptyStorage).state.wallets :=
  wallet_list_invariant _ _
    (Reachable.stepAdd wA 0 1 0 0 true true Reachable.start)

/-! ### C5 — failure atomicity and rollback -/

def afterAddA : StepResult :=
  addWallet wA 0 1 0 0 true true initialState emptyStorage

/-- C5 counterexample: after adding a wallet the vault is unlocked;
`unlock` with a different credential then fails with the cryptographic
error `DECRYPTION_FAILED`, but instead of rolling back to the
pre-operation lock status (unlocked) it forces the lock flag on. -/
theorem unlock_failure_no_rollback_cex :
    afterAddA.thrown = none ∧
    afterAddA.state.isLocked = false ∧
    (unlock "c2" true 0 1 afterAddA.state afterAddA.store).thrown =
      some "DECRYPTION_FAILED" ∧
    (unlock "c2" true 0 1 afterAddA.state
      afterAddA.store).state.isLocked = true := by
  exact ⟨rfl, rfl, rfl, rfl⟩

theorem setMapKey_mem (m : List (String × String)) (k v : String) :
    (k, v) ∈ setMapKey m k v := by
  rw [setMapKey]
  split
  · rename_i hany
    rw [List.any_eq_true] at hany
    obtain ⟨q, hq, hqk⟩ := hany
    rw [List.mem_map]
    exact ⟨q, hq, by rw [if_pos hqk]⟩
  · exact List.mem_append_right _ (List.mem_singleton.mpr rfl)

/-- C5 (amended): failing `addWallet` and `removeWallet` leave the lock
status, wallet list and active selection unchanged, and their domain
failures leave the persisted store untouched; `removeWallet` never
partially writes (on any failure every persisted key is unchanged,
except that `getSalt` may have created a salt where none existed); but
`addWallet` is atomic only up to its first write: a failing
credential-map write leaves both encrypted blobs unchanged, while a
wallet-list write failing after the credential-map write succeeded
leaves the freshly re-encrypted credential map (holding the new
mapping, under this call's key and IV) persisted with the wallet blob
unchanged — a partial write is exposed.  On success both blobs are
persisted under the same derived key.  (`unlock` forces Locked on any
failure rather than restoring the pre-operation lock status — see the
counterexample.) -/
theorem addWallet_removeWallet_atomic (w : Wallet) (address : String)
    (now fresh iv1 iv2 iv : Nat) (encCredOk encWalletsOk encOk : Bool)
    (s : WalletState) (st : LocalStorage) :
    ((addWallet w now fresh iv1 iv2 encCredOk encWalletsOk s st).thrown ≠
        none →
      (addWallet w now fresh iv1 iv2 encCredOk encWalletsOk
          s st).state.isLocked = s.isLocked ∧
      (addWallet w now fresh iv1 iv2 encCredOk encWalletsOk
          s st).state.wallets = s.wallets ∧
      (addWallet w now fresh iv1 iv2 encCredOk encWalletsOk
          s st).state.activeWallet = s.activeWallet ∧
      (addWallet w now fresh iv1 iv2 encCredOk encWalletsOk
          s st).store.skypier_wallets = st.skypier_wallets ∧
      (addWallet w now fresh iv1 iv2 encCredOk encWalletsOk
          s st).store.skypier_session = st.skypier_session ∧
      (addWallet w now fresh iv1 iv2 encCredOk encWalletsOk
          s st).store.skypier_active_wallet = st.skypier_active_wallet ∧
      (addWallet w now fresh iv1 iv2 encCredOk encWalletsOk
          s st).store.skypier_last_credential_id =
        st.skypier_last_credential_id ∧
      ((addWallet w now fresh iv1 iv2 encCredOk encWalletsOk
          s st).store.skypier_salt = st.skypier_salt ∨
        (addWallet w now fresh iv1 iv2 encCredOk encWalletsOk
          s st).store.skypier_salt = some fresh)) ∧
    ((removeWallet address fresh iv encOk s st).thrown ≠ none →
      (removeWallet address fresh iv encOk s st).state.isLocked =
        s.isLocked ∧
      (removeWallet address fresh iv encOk s st).state.wallets =
        s.wallets ∧
      (removeWallet address fresh iv encOk s st).state.activeWallet =
        s.activeWallet ∧
      (removeWallet address fresh iv encOk s st).store.skypier_wallets =
        st.skypier_wallets ∧
      (removeWallet address fresh iv encOk
          s st).store.skypier_credentials = st.skypier_credentials ∧
      (removeWallet address fresh iv encOk s st).store.skypier_session =
        st.skypier_session ∧
      (removeWallet address fresh iv encOk
          s st).store.skypier_active_wallet = st.skypier_active_wallet ∧
      (removeWallet address fresh iv encOk
          s st).store.skypier_last_credential_id =
        st.skypier_last_credential_id ∧
      ((removeWallet address fresh iv encOk s st).store.skypier_salt =
          st.skypier_salt ∨
        (removeWallet address fresh iv encOk s st).store.skypier_salt =
          some fresh)) ∧
    ((addWallet w now fresh iv1 iv2 encCredOk encWalletsOk s st).thrown =
        some "WALLET_ALREADY_EXISTS" ∨
      (addWallet w now fresh iv1 iv2 encCredOk encWalletsOk s st).thrown =
        some "IMPORTED_WALLET_NOT_SUPPORTED_YET" →
      (addWallet w now fresh iv1 iv2 encCredOk encWalletsOk s st).store =
        st) ∧
    (s.wallets.any (fun w2 => w2.address == w.address) = false →
      w.type = WalletType.biometric → encCredOk = false →
      (addWallet w now fresh iv1 iv2 encCredOk encWalletsOk s st).thrown =
        some "ENCRYPTION_FAILED" ∧
      (addWallet w now fresh iv1 iv2 encCredOk encWalletsOk
          s st).store.skypier_credentials = st.skypier_credentials) ∧
    (s.wallets.any (fun w2 => w2.address == w.address) = false →
      w.type = WalletType.biometric → encCredOk = true →
      encWalletsOk = false →
      (addWallet w now fresh iv1 iv2 encCredOk encWalletsOk s st).thrown =
        some "ENCRYPTION_FAILED" ∧
      (addWallet w now fresh iv1 iv2 encCredOk encWalletsOk
          s st).store.skypier_wallets = st.skypier_wallets ∧
      ∃ b, (addWallet w now fresh iv1 iv2 encCredOk encWalletsOk
          s st).store.skypier_credentials = some b ∧
        b.key = deriveKey (derivePasswordFromCredential w.credentialId)
          (getSalt fresh st).1 ∧
        b.iv = iv1 ∧
        (w.address, w.credentialId) ∈ b.payload) ∧
    ((addWallet w now fresh iv1 iv2 encCredOk encWalletsOk s st).thrown =
        none →
      (addWallet w now fresh iv1 iv2 encCredOk encWalletsOk
          s st).store.skypier_wallets =
        some (encrypt (s.wallets ++ [w])
          (deriveKey (derivePasswordFromCredential w.credentialId)
            (getSalt fresh st).1) iv2) ∧
      ∃ b, (addWallet w now fresh iv1 iv2 encCredOk encWalletsOk
          s st).store.skypier_credentials = some b ∧
        b.key = deriveKey (derivePasswordFromCredential w.credentialId)
          (getSalt fresh st).1 ∧
        (w.address, w.credentialId) ∈ b.payload) := by
  refine ⟨?_, ?_, ?_, ?_, ?_, ?_⟩
  · intro hth
    by_cases hdup :
        s.wallets.any (fun w2 => w2.address == w.address) = true
    · simp [addWallet, hdup, addWalletFailure]
    · cases hty : w.type with
      | imported => simp [addWallet, hdup, hty, addWalletFailure]
      | biometric =>
        cases encCredOk with
        | false =>
          cases hsalt : st.skypier_salt <;>
            simp [addWallet, hdup, hty, storeCredential, getSalt, hsalt,
              addWalletFailure]
        | true =>
          cases encWalletsOk with
          | false =>
            cases hsalt : st.skypier_salt <;>
              simp [addWallet, hdup, hty, storeCredential, storeWallets,
                getSalt, hsalt, addWalletFailure]
          | true =>
            exfalso
            apply hth
            simp [addWallet, hdup, hty, storeCredential, storeWallets]
  · intro hth
    cases hf : s.wallets.find? (fun w2 => w2.address == address) with
    | none => simp [removeWallet, hf, removeWalletFailure]
    | some wrm =>
      cases hty : wrm.type with
      | imported => simp [removeWallet, hf, hty, removeWalletFailure]
      | biometric =>
        cases encOk with
        | false =>
          cases hsalt : st.skypier_salt <;>
            simp [removeWallet, hf, hty, storeWallets, getSalt, hsalt,
              removeWalletFailure]
        | true =>
          exfalso
          apply hth
          cases hact : s.activeWallet with
          | none => simp [removeWallet, hf, hty, hact, storeWallets]
          | some aw =>
            by_cases haw : aw.address = address
            · cases hhd : (s.wallets.filter
                  fun w2 => !(w2.address == address)).head? with
              | none =>
                simp [removeWallet, hf, hty, hact, haw, hhd, storeWallets]
              | some whd =>
                simp [removeWallet, hf, hty, hact, haw, hhd, storeWallets]
            · simp [removeWallet, hf, hty, hact, haw, storeWallets]
  · intro h
    by_cases hdup :
        s.wallets.any (fun w2 => w2.address == w.address) = true
    · simp [addWallet, hdup, addWalletFailure]
    · cases hty : w.type with
      | imported => simp [addWallet, hdup, hty, addWalletFailure]
      | biometric =>
        exfalso
        have hthr :
            (addWallet w now fresh iv1 iv2 encCredOk encWalletsOk
              s st).thrown = none ∨
            (addWallet w now fresh iv1 iv2 encCredOk encWalletsOk
              s st).thrown = some "ENCRYPTION_FAILED" := by
          cases encCredOk with
          | false =>
            exact Or.inr (by
              simp [addWallet, hdup, hty, storeCredential,
                addWalletFailure])
          | true =>
            cases encWalletsOk with
            | false =>
              exact Or.inr (by
                simp [addWallet, hdup, hty, storeCredential,
                  storeWallets, addWalletFailure])
            | true =>
              exact Or.inl (by
                simp [addWallet, hdup, hty, storeCredential,
                  storeWallets])
        rcases hthr with hthr | hthr <;> rcases h with h | h <;>
          rw [hthr] at h <;> exact absurd h (by decide)
  · intro hdup hty hcred
    subst hcred
    constructor
    · simp [addWallet, hdup, hty, storeCredential, addWalletFailure]
    · cases hsalt : st.skypier_salt <;>
        simp [addWallet, hdup, hty, storeCredential, getSalt, hsalt,
          addWalletFailure]
  · intro hdup hty h1 h2
    subst h1
    subst h2
    refine ⟨?_, ?_, ?_⟩
    · simp [addWallet, hdup, hty, storeCredential, storeWallets,
        addWalletFailure]
    · cases hsalt : st.skypier_salt <;>
        simp [addWallet, hdup, hty, storeCredential, storeWallets,
          getSalt, hsalt, addWalletFailure]
    · cases hcb : (addWallet w now fresh iv1 iv2 true false
          s st).store.skypier_credentials with
      | none =>
        exfalso
        cases hsalt : st.skypier_salt <;>
          simp [addWallet, hdup, hty, storeCredential, storeWallets,
            getSalt, hsalt, addWalletFailure] at hcb
      | some b =>
        refine ⟨b, rfl, ?_, ?_, ?_⟩
        · cases hsalt : st.skypier_salt <;>
            (simp [addWallet, hdup, hty, storeCredential, storeWallets,
               getSalt, hsalt, addWalletFailure] at hcb;
             rw [← hcb]; simp [encrypt, getSalt, hsalt])
        · cases hsalt : st.skypier_salt <;>
            (simp [addWallet, hdup, hty, storeCredential, storeWallets,
               getSalt, hsalt, addWalletFailure] at hcb;
             rw [← hcb]; simp [encrypt])
        · cases hsalt : st.skypier_salt <;>
            (simp [addWallet, hdup, hty, storeCredential, storeWallets,
               getSalt, hsalt, addWalletFailure] at hcb;
             rw [← hcb]; exact setMapKey_mem _ _ _)
  · intro hth
    by_cases hdup :
        s.wallets.any (fun w2 => w2.address == w.address) = true
    · exfalso
      simp [addWallet, hdup, addWalletFailure] at hth
    · cases hty : w.type with
      | imported =>
        exfalso
        simp [addWallet, hdup, hty, addWalletFailure] at hth
      | biometric =>
        cases encCredOk with
        | false =>
          exfalso
          simp [addWallet, hdup, hty, storeCredential,
            addWalletFailure] at hth
        | true =>
          cases encWalletsOk with
          | false =>
            exfalso
            simp [addWallet, hdup, hty, storeCredential, storeWallets,
              addWalletFailure] at hth
          | true =>
            cases hsalt : st.skypier_salt with
            | none =>
              constructor
              · simp [addWallet, hdup, hty, storeCredential, storeWallets,
                  getSalt, hsalt, createSession, storeActiveWallet]
              · cases hcb : (addWallet w now fresh iv1 iv2 true true
                    s st).store.skypier_credentials with
                | none =>
                  exfalso
                  simp [addWallet, hdup, hty, storeCredential,
                    storeWallets, getSalt, hsalt, createSession,
                    storeActiveWallet] at hcb
                | some b =>
                  refine ⟨b, rfl, ?_, ?_⟩
                  · simp [addWallet, hdup, hty, storeCredential,
                      storeWallets, getSalt, hsalt, createSession,
                      storeActiveWallet] at hcb
                    rw [← hcb]
                    simp [encrypt, getSalt, hsalt]
                  · simp [addWallet, hdup, hty, storeCredential,
                      storeWallets, getSalt, hsalt, createSession,
                      storeActiveWallet] at hcb
                    rw [← hcb]
                    exact setMapKey_mem _ _ _
            | some salt =>
              constructor
              · simp [addWallet, hdup, hty, storeCredential, storeWallets,
                  getSalt, hsalt, createSession, storeActiveWallet]
              · cases hcb : (addWallet w now fresh iv1 iv2 true true
                    s st).store.skypier_credentials with
                | none =>
                  exfalso
                  simp [addWallet, hdup, hty, storeCredential,
                    storeWallets, getSalt, hsalt, createSession,
                    storeActiveWallet] at hcb
                | some b =>
                  refine ⟨b, rfl, ?_, ?_⟩
                  · simp [addWallet, hdup, hty, storeCredential,
                      storeWallets, getSalt, hsalt, createSession,
                      storeActiveWallet] at hcb
                    rw [← hcb]
                    simp [encrypt, getSalt, hsalt]
                  · simp [addWallet, hdup, hty, storeCredential,
                      storeWallets, getSalt, hsalt, createSession,
                      storeActiveWallet] at hcb
                    rw [← hcb]
                    exact setMapKey_mem _ _ _

theorem addWallet_removeWallet_atomic_witness :
    (initialState.wallets.any (fun w2 => w2.address == wA.address) =
        false ∧
      wA.type = WalletType.biometric ∧
      emptyStorage.skypier_credentials = none) ∧
    ((addWallet wA 0 1 0 0 true false initialState emptyStorage).thrown =
        some "ENCRYPTION_FAILED" ∧
      (addWallet wA 0 1 0 0 true false initialState
          emptyStorage).store.skypier_wallets =
        emptyStorage.skypier_wallets ∧
      ∃ b, (addWallet wA 0 1 0 0 true false initialState
          emptyStorage).store.skypier_credentials = some b ∧
        b.key = deriveKey (derivePasswordFromCredential wA.credentialId)
          (getSalt 1 emptyStorage).1 ∧
        b.iv = 0 ∧
        (wA.address, wA.credentialId) ∈ b.payload) ∧
    ((addWallet wA 0 1 0 0 true false initialState
        emptyStorage).state.isLocked = initialState.isLocked ∧
      (addWallet wA 0 1 0 0 true false initialState
        emptyStorage).state.wallets = initialState.wallets ∧
      (addWallet wA 0 1 0 0 true false initialState
        emptyStorage).state.activeWallet = initialState.activeWallet) :=
  ⟨⟨by decide, rfl, rfl⟩,
   (addWallet_removeWallet_atomic wA "0xaaa" 0 1 0 0 0 true false true
      initialState emptyStorage).2.2.2.2.1 (by decide) rfl rfl rfl,
   ⟨((addWallet_removeWallet_atomic wA "0xaaa" 0 1 0 0 0 true false true
       initialState emptyStorage).1 (by decide)).1,
    ((addWallet_removeWallet_atomic wA "0xaaa" 0 1 0 0 0 true false true
       initialState emptyStorage).1 (by decide)).2.1,
    ((addWallet_removeWallet_atomic wA "0xaaa" 0 1 0 0 0 true false true
       initialState emptyStorage).1 (by decide)).2.2.1⟩⟩

end Skypier
